import Mathlib

/-!
# libbitcoin-network: the scoped transaction guard and the connection proxy

A shallow embedding of `src/storage/bdb/txn_guard.hpp` and of
`include/bitcoin/network/proxy.hpp`, with the properties of their
specification stated and proved over it.

Calls made on collaborators (the Berkeley DB environment, the socket, the
subscribers) are recorded in an append-only log carried by the state, so that
"is issued", "exactly once" and "never" become statements about that log.
-/

namespace libbitcoin

/-! ## Berkeley DB collaborator -/

/-- Handle of a Berkeley DB transaction, the `DbTxn*` of the source. -/
abbrev DbTxn := Nat

/-- One call received by the Berkeley DB layer. -/
inductive db_call where
  | txn_begin (parent : Option DbTxn) (flags : Nat) (result : DbTxn)
  | commit (txn : DbTxn) (flags : Nat)
  | abort (txn : DbTxn)
  deriving DecidableEq

/-- The Berkeley DB environment as the guard sees it: the handle the next
`txn_begin` hands out, every call received so far (oldest first), and the
number of `BITCOIN_ASSERT`s that failed. -/
structure DbEnv where
  next_txn : DbTxn
  calls : List db_call
  assert_failures : Nat
  deriving DecidableEq

/-- The call `env->txn_begin(parent, &txn, flags)`: returns the new handle and
records the call. -/
def DbEnv.txn_begin (env : DbEnv) (parent : Option DbTxn) (flags : Nat) : DbTxn × DbEnv :=
  (env.next_txn,
    { env with
      next_txn := env.next_txn + 1
      calls := env.calls ++ [db_call.txn_begin parent flags env.next_txn] })

/-- The call `txn->commit(flags)`. -/
def DbTxn.commit (txn : DbTxn) (flags : Nat) (env : DbEnv) : DbEnv :=
  { env with calls := env.calls ++ [db_call.commit txn flags] }

/-- The call `txn->abort()`. -/
def DbTxn.abort (txn : DbTxn) (env : DbEnv) : DbEnv :=
  { env with calls := env.calls ++ [db_call.abort txn] }

/-- Modelled from the spec: the `BITCOIN_ASSERT` macro of
`bitcoin/util/assert.hpp`, which is not among the sources. A condition that
does not hold is a detected programming error: it is counted, and nothing else
changes. -/
def BITCOIN_ASSERT (cond : Bool) (env : DbEnv) : DbEnv :=
  if cond then env else { env with assert_failures := env.assert_failures + 1 }

/-! ## txn_guard -/

/-- The data members of `class txn_guard`. -/
structure txn_guard where
  txn_ : DbTxn
  used_ : Bool
  deriving DecidableEq

namespace txn_guard

/-- The constructor `txn_guard(const bdb_guard<DbEnv>& env)`: `used_(false)`,
then `env->txn_begin(nullptr, &txn_, 0)`. -/
def create (env : DbEnv) : txn_guard × DbEnv :=
  let r := env.txn_begin none 0
  ({ txn_ := r.1, used_ := false }, r.2)

/-- The member `void commit()`. -/
def commit (self : txn_guard) (env : DbEnv) : txn_guard × DbEnv :=
  let self := { self with used_ := true }
  (self, DbTxn.commit self.txn_ 0 env)

/-- The member `void abort()`. -/
def abort (self : txn_guard) (env : DbEnv) : txn_guard × DbEnv :=
  let self := { self with used_ := true }
  (self, DbTxn.abort self.txn_ env)

/-- The member `DbTxn* get()`. -/
def get (self : txn_guard) : DbTxn :=
  self.txn_

/-- The destructor `~txn_guard()`. -/
def destroy (self : txn_guard) (env : DbEnv) : DbEnv :=
  let env := if !self.used_ then DbTxn.abort self.txn_ env else env
  BITCOIN_ASSERT self.used_ env

end txn_guard

/-- A call a client makes on a live guard. -/
inductive guard_op where
  | commit
  | abort
  | get
  deriving DecidableEq

/-- Whether the client call is one of the two terminal members. -/
def guard_op.is_terminal : guard_op → Bool
  | guard_op.commit => true
  | guard_op.abort => true
  | guard_op.get => false

/-- A live guard, the environment it works on, and what each `get()` made so
far returned (oldest first). -/
structure guard_state where
  guard : txn_guard
  env : DbEnv
  got : List DbTxn
  deriving DecidableEq

/-- One client call on a live guard. -/
def guard_state.step (s : guard_state) : guard_op → guard_state
  | guard_op.commit =>
    let r := s.guard.commit s.env
    { s with guard := r.1, env := r.2 }
  | guard_op.abort =>
    let r := s.guard.abort s.env
    { s with guard := r.1, env := r.2 }
  | guard_op.get => { s with got := s.got ++ [s.guard.get] }

/-- Construction of a guard on `env`. -/
def guard_state.init (env : DbEnv) : guard_state :=
  let r := txn_guard.create env
  { guard := r.1, env := r.2, got := [] }

/-- The state of a guard constructed on `env` after the client calls `ops`. -/
def guard_state.run (env : DbEnv) (ops : List guard_op) : guard_state :=
  ops.foldl guard_state.step (guard_state.init env)

/-- The whole lifetime of a guard: construction on `env`, the client calls
`ops` in order, destruction. The result is the environment left behind. -/
def lifetime (env : DbEnv) (ops : List guard_op) : DbEnv :=
  let s := guard_state.run env ops
  s.guard.destroy s.env

/-- The calls the environment received during a lifetime that started in
`before` and ended in `after`. -/
def issued (before after : DbEnv) : List db_call :=
  after.calls.drop before.calls.length

/-- Whether a call is a terminal operation (commit or abort) on `txn`. -/
def db_call.is_terminal_on (txn : DbTxn) : db_call → Bool
  | db_call.commit t _ => t == txn
  | db_call.abort t => t == txn
  | db_call.txn_begin _ _ _ => false

/-- Whether a call is a commit, on any transaction. -/
def db_call.is_commit : db_call → Bool
  | db_call.commit _ _ => true
  | _ => false

/-- Whether a call is a `txn_begin`. -/
def db_call.is_begin : db_call → Bool
  | db_call.txn_begin _ _ _ => true
  | _ => false

/-- The Berkeley DB call a client call on a guard of transaction `txn` turns
into, if any. -/
def guard_op.call (txn : DbTxn) : guard_op → Option db_call
  | guard_op.commit => some (db_call.commit txn 0)
  | guard_op.abort => some (db_call.abort txn)
  | guard_op.get => none

/-- An environment with nothing begun yet. -/
def fresh_env : DbEnv :=
  { next_txn := 0, calls := [], assert_failures := 0 }

/-! ## Connection proxy

`proxy.hpp` declares the proxy and defines `send` and `subscribe` inline; the
member functions defined in `proxy.cpp`, and the subscriber classes, are not
among the sources and are modelled from the specification. The two inline
members only forward to such a callee (`do_send`, the `subscribe` of the
message subscriber), which they take as a parameter. -/

namespace network

/-- A sequence of bytes, the `data_chunk` of the source. -/
abbrev data_chunk := List Nat

/-- The status code delivered to handlers (`code`), with the error taxonomy of
the specification; `other` stands for any further code a caller may pass. -/
inductive code where
  | success
  | transport_error
  | protocol_error
  | decode_error
  | lifecycle_error
  | other (n : Nat)
  deriving DecidableEq

/-- The transport's own status (`boost_code`): zero is success. -/
abbrev boost_code := Nat

/-- The status code a transport status is reported as. -/
def code.of_boost (ec : boost_code) : code :=
  if ec = 0 then code.success else code.transport_error

/-- The fixed-size prefix of a wire message (`message::heading`). The magic
and the checksum are four-byte values; they are only ever compared, so no
arithmetic modulo 2^32 arises. -/
structure heading where
  magic : Nat
  command : String
  payload_length : Nat
  checksum : Nat
  deriving DecidableEq

/-- A typed message: its wire command identifier and its fields. -/
structure message where
  command : String
  body : data_chunk
  deriving DecidableEq

/-- Identifier of a `result_handler`, a `std::function<void(const code&)>`. -/
abbrev result_handler := Nat

/-- A `message_handler<Message>`: its identifier, and the value it returns
when invoked, true for "keep subscribed". -/
structure message_handler where
  id : Nat
  resubscribe : code → Option message → Bool

/-- The collaborators and the configuration the proxy is given: the codec
(`serialize`, `compute_checksum`, the per-type `decode`, the parse of a
heading buffer) and the configured maximum payload length. -/
structure context where
  serialize : message → Nat → data_chunk
  compute_checksum : data_chunk → Nat
  decode : String → data_chunk → Option message
  parse_heading : data_chunk → Option heading
  max_payload_size : Nat

/-- What the proxy does to the outside, in the order it does it. -/
inductive event where
  | socket_close
  | stop_notified (handler : result_handler) (ec : code)
  | handle_stopping
  | handle_activity
  | read_heading_issued
  | payload_allocated (size : Nat)
  | read_payload_issued (size : Nat)
  | decoded (command : String) (payload : data_chunk)
  | message_notified (handler : Nat) (ec : code) (decoded : Option message)
  | write_issued (bytes : data_chunk) (command : String)
  | send_notified (handler : result_handler) (ec : code)
  deriving DecidableEq

/-- Whether the event belongs to the shutdown sequence. -/
def event.is_shutdown : event → Bool
  | event.socket_close => true
  | event.stop_notified _ _ => true
  | event.handle_stopping => true
  | _ => false

/-- Whether the event allocates a payload buffer or issues a payload read. -/
def event.is_payload_read : event → Bool
  | event.payload_allocated _ => true
  | event.read_payload_issued _ => true
  | _ => false

/-- Whether the event hands a payload to a typed decoder or to a message
handler. -/
def event.is_dispatch : event → Bool
  | event.decoded _ _ => true
  | event.message_notified _ _ _ => true
  | _ => false

/-- Whether the event reports a status code to a single handler: a stop
notification or the completion of a send. -/
def event.is_report : event → Bool
  | event.stop_notified _ _ => true
  | event.send_notified _ _ => true
  | _ => false

/-- Whether the event is part of the inbound path: a read, an allocation, a
decode, a handler invocation, the activity hook. -/
def event.is_inbound : event → Bool
  | event.handle_activity => true
  | event.read_heading_issued => true
  | event.payload_allocated _ => true
  | event.read_payload_issued _ => true
  | event.decoded _ _ => true
  | event.message_notified _ _ _ => true
  | _ => false

/-- Modelled from the spec: class `message_subscriber` of
`bitcoin/network/message_subscriber.hpp`, which is not among the sources. A
mapping from command identifier to an ordered sequence of typed handlers. -/
structure message_subscriber where
  handlers : String → List message_handler

/-- Modelled from the spec: `message_subscriber::subscribe<T>`, missing with
its class. Appends to the ordered handler list keyed by the wire command
identifier of `T`. -/
def message_subscriber.subscribe (self : message_subscriber) (command : String)
    (handler : message_handler) : message_subscriber :=
  { handlers := fun c => if c = command then self.handlers c ++ [handler] else self.handlers c }

/-- Modelled from the spec: the dispatch of `message_subscriber`, missing with
its class. With no handler registered for the command it is a no-op success.
Otherwise the bytes are decoded, every handler of the command is invoked in
registration order, with success and the decoded value or with a failure code
and no message, and the handlers that asked for it are removed after the
pass. -/
def message_subscriber.dispatch (ctx : context) (self : message_subscriber) (command : String)
    (raw_bytes : data_chunk) : code × message_subscriber × List event :=
  match self.handlers command with
  | [] => (code.success, self, [])
  | h :: hs =>
    let decoded := ctx.decode command raw_bytes
    let ec := if decoded.isSome then code.success else code.decode_error
    (ec,
      { handlers := fun c =>
          if c = command then (h :: hs).filter (fun x => x.resubscribe ec decoded)
          else self.handlers c },
      event.decoded command raw_bytes ::
        (h :: hs).map (fun x => event.message_notified x.id ec decoded))

/-- Modelled from the spec: the `stop_subscriber` (`subscriber<const code&>`),
whose class is not among the sources. An ordered sequence of handlers awaiting
the terminal status code. -/
structure stop_subscriber where
  handlers : List result_handler
  deriving DecidableEq

/-- Modelled from the spec: `subscriber::subscribe`, missing with its class. -/
def stop_subscriber.subscribe (self : stop_subscriber) (handler : result_handler) :
    stop_subscriber :=
  { handlers := self.handlers ++ [handler] }

/-- Modelled from the spec: `subscriber::relay`, missing with its class.
Invokes every registered handler once, in registration order, then discards
the registry. -/
def stop_subscriber.relay (self : stop_subscriber) (ec : code) : stop_subscriber × List event :=
  ({ handlers := [] }, self.handlers.map (fun h => event.stop_notified h ec))

/-- The data members of `class proxy`, with the final status code and the log
of what the proxy did (oldest first). The thread pool and the mutex have no
counterpart: every operation runs to completion before the next. -/
structure proxy where
  stopped_ : Bool
  magic_ : Nat
  authority_ : Nat
  socket_open : Bool
  payload_buffer_ : data_chunk
  heading_buffer_ : data_chunk
  message_subscriber_ : message_subscriber
  stop_subscriber_ : stop_subscriber
  final_code : code
  log : List event

namespace proxy

/-- Modelled from the spec: the constructor
`proxy(threadpool&, asio::socket_ptr, uint32_t magic)`, defined in `proxy.cpp`,
which is not among the sources. The proxy is bound to one live socket, takes
its authority from the socket's remote endpoint, is configured with `magic`,
is not stopped and has no subscriber. -/
def create (endpoint : Nat) (magic : Nat) : proxy :=
  { stopped_ := false
    magic_ := magic
    authority_ := endpoint
    socket_open := true
    payload_buffer_ := []
    heading_buffer_ := []
    message_subscriber_ := { handlers := fun _ => [] }
    stop_subscriber_ := { handlers := [] }
    final_code := code.success
    log := [] }

/-- Modelled from the spec: `proxy::stopped`, defined in `proxy.cpp`. A pure
accessor of the stopped flag. -/
def stopped (self : proxy) : Bool :=
  self.stopped_

/-- Modelled from the spec: `proxy::authority`, defined in `proxy.cpp`. -/
def authority (self : proxy) : Nat :=
  self.authority_

/-- Modelled from the spec: `proxy::do_close`, defined in `proxy.cpp`. Closes
the socket and clears the buffers. -/
def do_close (self : proxy) : proxy :=
  { self with
    socket_open := false
    heading_buffer_ := []
    payload_buffer_ := []
    log := self.log ++ [event.socket_close] }

/-- Modelled from the spec: `proxy::stop(const code&)`, defined in
`proxy.cpp`. A compare-and-set on the stopped flag; the caller that wins it
runs the shutdown sequence: socket close, clearing of the buffers,
notification of the stop subscribers in registration order with its code, the
stopping hook. Every other caller returns at once. -/
def stop (self : proxy) (ec : code) : proxy :=
  if self.stopped_ then self
  else
    let self := { self with stopped_ := true, final_code := ec }
    let self := self.do_close
    let r := self.stop_subscriber_.relay ec
    let self := { self with stop_subscriber_ := r.1, log := self.log ++ r.2 }
    { self with log := self.log ++ [event.handle_stopping] }

/-- Modelled from the spec: the private `proxy::stop(const boost_code&)`,
defined in `proxy.cpp`. Stops with the code the transport status stands for. -/
def stop_boost (self : proxy) (ec : boost_code) : proxy :=
  self.stop (code.of_boost ec)

/-- Modelled from the spec: `proxy::subscribe_stop`, defined in `proxy.cpp`.
Registers a handler for the terminal notification; on a stopped proxy the
handler is invoked immediately with the final code. -/
def subscribe_stop (self : proxy) (handler : result_handler) : proxy :=
  if self.stopped_ then
    { self with log := self.log ++ [event.stop_notified handler self.final_code] }
  else { self with stop_subscriber_ := self.stop_subscriber_.subscribe handler }

/-- Modelled from the spec: `proxy::read_heading`, defined in `proxy.cpp`.
Issues the asynchronous read of a heading; no read is issued once stopped. -/
def read_heading (self : proxy) : proxy :=
  if self.stopped_ then self
  else { self with log := self.log ++ [event.read_heading_issued] }

/-- Modelled from the spec: `proxy::read_payload`, defined in `proxy.cpp`.
Allocates a payload buffer of the declared length and issues the payload
read; no read is issued once stopped. -/
def read_payload (self : proxy) (head : heading) : proxy :=
  if self.stopped_ then self
  else
    { self with
      payload_buffer_ := List.replicate head.payload_length 0
      log := self.log ++
        [event.payload_allocated head.payload_length,
          event.read_payload_issued head.payload_length] }

/-- Modelled from the spec: `proxy::start`, defined in `proxy.cpp`. Registers
the handler as a stop subscriber and issues the first heading read. -/
def start (self : proxy) (handler : result_handler) : proxy :=
  (self.subscribe_stop handler).read_heading

/-- Modelled from the spec: `proxy::handle_read_heading`, defined in
`proxy.cpp`; `received` is what the transport wrote to the heading buffer. A
completion on a stopped proxy is a no-op and a transport failure stops the
proxy. The heading is parsed: a parse failure, a magic other than the
configured one or a payload length over the configured maximum stop the proxy
with a protocol error; otherwise the payload read is issued. -/
def handle_read_heading (ctx : context) (self : proxy) (ec : boost_code)
    (received : data_chunk) : proxy :=
  if self.stopped_ then self
  else if ec ≠ 0 then self.stop_boost ec
  else
    let self := { self with heading_buffer_ := received }
    match ctx.parse_heading self.heading_buffer_ with
    | none => self.stop code.protocol_error
    | some head =>
      if head.magic ≠ self.magic_ then self.stop code.protocol_error
      else if head.payload_length > ctx.max_payload_size then self.stop code.protocol_error
      else self.read_payload head

/-- Modelled from the spec: `proxy::handle_read_payload`, defined in
`proxy.cpp`; `received` is what the transport wrote to the payload buffer. A
completion on a stopped proxy is a no-op and a transport failure stops the
proxy. The checksum is verified through the codec: a mismatch stops the proxy
with a protocol error; on a match the payload is dispatched through the
message subscriber, the activity hook is invoked and the next heading read is
issued. -/
def handle_read_payload (ctx : context) (self : proxy) (ec : boost_code)
    (received : data_chunk) (head : heading) : proxy :=
  if self.stopped_ then self
  else if ec ≠ 0 then self.stop_boost ec
  else
    let self := { self with payload_buffer_ := received }
    if ctx.compute_checksum self.payload_buffer_ ≠ head.checksum then
      self.stop code.protocol_error
    else
      let r := self.message_subscriber_.dispatch ctx head.command self.payload_buffer_
      let self := { self with message_subscriber_ := r.2.1, log := self.log ++ r.2.2 }
      let self := { self with log := self.log ++ [event.handle_activity] }
      self.read_heading

/-- Modelled from the spec: `proxy::do_send`, defined in `proxy.cpp`. Writes
the serialized message to the socket; on a stopped proxy nothing is written
and the failure is reported to the handler. -/
def do_send (self : proxy) (message : data_chunk) (handler : result_handler)
    (command : String) : proxy :=
  if self.stopped_ then
    { self with log := self.log ++ [event.send_notified handler code.lifecycle_error] }
  else { self with log := self.log ++ [event.write_issued message command] }

/-- Modelled from the spec: `proxy::handle_send`, defined in `proxy.cpp`. The
completion handler is invoked with success or the failure code of the write,
and a write failure stops the proxy. -/
def handle_send (self : proxy) (ec : boost_code) (handler : result_handler) : proxy :=
  let self := { self with log := self.log ++ [event.send_notified handler (code.of_boost ec)] }
  if ec ≠ 0 then self.stop_boost ec else self

/-- The member template `proxy::send` of `proxy.hpp`:
`do_send(message::serialize(packet, magic_), handler, packet.command)`.
`message::serialize` and `do_send` are not among the sources and are
parameters. -/
def send {α : Type} (serialize : message → Nat → data_chunk)
    (do_send : proxy → data_chunk → result_handler → String → α)
    (self : proxy) (packet : message) (handler : result_handler) : α :=
  do_send self (serialize packet self.magic_) handler packet.command

/-- Modelled from the spec: the call `message_subscriber_.subscribe<Message>`
as it acts on the proxy. `message_subscriber.hpp`, and what `proxy::stop` does
to the registry, are not among the sources. A subscribe after the proxy has
stopped is a no-op: the registry is stopped with the proxy, and the stopped
flag of the proxy stands for both. Until then the handler is appended to the
ordered list of its command. -/
def subscribe_message (self : proxy) (command : String) (handler : message_handler) : proxy :=
  if self.stopped_ then self
  else { self with message_subscriber_ := self.message_subscriber_.subscribe command handler }

/-- The member template `proxy::subscribe` of `proxy.hpp`: the handler is
forwarded to a local and passed to `message_subscriber_.subscribe<Message>`;
`command` is the wire command identifier of `Message`. The subscribe of the
message subscriber is not among the sources and is a parameter. -/
def subscribe {α : Type} (subscribe_message : proxy → String → message_handler → α)
    (self : proxy) (command : String) (handler : message_handler) : α :=
  let stopped := handler
  subscribe_message self command stopped

end proxy

/-- An operation on a proxy: a call of its interface, or the completion of a
read or of a write. -/
inductive proxy_op where
  | start (handler : result_handler)
  | stop (ec : code)
  | send (packet : message) (handler : result_handler)
  | subscribe (command : String) (handler : message_handler)
  | subscribe_stop (handler : result_handler)
  | read_heading_done (ec : boost_code) (received : data_chunk)
  | read_payload_done (ec : boost_code) (received : data_chunk) (head : heading)
  | send_done (ec : boost_code) (handler : result_handler)

/-- The proxy after one operation. -/
def proxy.step (ctx : context) (self : proxy) : proxy_op → proxy
  | proxy_op.start handler => self.start handler
  | proxy_op.stop ec => self.stop ec
  | proxy_op.send packet handler => self.send ctx.serialize proxy.do_send packet handler
  | proxy_op.subscribe command handler =>
    self.subscribe proxy.subscribe_message command handler
  | proxy_op.subscribe_stop handler => self.subscribe_stop handler
  | proxy_op.read_heading_done ec received => self.handle_read_heading ctx ec received
  | proxy_op.read_payload_done ec received head => self.handle_read_payload ctx ec received head
  | proxy_op.send_done ec handler => self.handle_send ec handler

/-- The proxy after a sequence of operations. -/
def proxy.run (ctx : context) (self : proxy) (ops : List proxy_op) : proxy :=
  ops.foldl (proxy.step ctx) self

/-- The proxy after the calls `stop(code_1)`, ..., `stop(code_N)`. -/
def proxy.stops (self : proxy) (codes : List code) : proxy :=
  codes.foldl proxy.stop self

/-- A proxy constructed on `endpoint` with `magic`, after the operations
`before`, a call of `start` with `handler`, and the operations `after`. -/
def proxy.session (ctx : context) (endpoint magic : Nat) (before : List proxy_op)
    (handler : result_handler) (after : List proxy_op) : proxy :=
  proxy.run ctx (((proxy.create endpoint magic).run ctx before).start handler) after

/-- The events a proxy logged since it was in the state `self`. -/
def proxy.since (self later : proxy) : List event :=
  later.log.drop self.log.length

/-! ### Concrete collaborators and sessions -/

/-- A concrete codec: a message is serialized as the magic followed by its
fields, the checksum of a payload is the sum of its bytes, every payload
decodes, and a heading buffer holds a magic, a length and a checksum of a
"verack". At most 16 bytes of payload are accepted. -/
def sample_context : context :=
  { serialize := fun packet magic => magic :: packet.body
    compute_checksum := fun payload => payload.sum
    decode := fun command payload => some { command := command, body := payload }
    parse_heading := fun buffer =>
      match buffer with
      | [magic, length, checksum] =>
        some { magic := magic, command := "verack", payload_length := length,
               checksum := checksum }
      | _ => none
    max_payload_size := 16 }

/-- A handler that stays subscribed. -/
def sample_handler : message_handler :=
  { id := 5, resubscribe := fun _ _ => true }

/-- A heading of the configured magic that declares three bytes of payload of
checksum 7. -/
def sample_heading : heading :=
  { magic := 3652501241, command := "verack", payload_length := 3, checksum := 7 }

/-- A running session: constructed with magic 3652501241, started with
handler 7, then handler 8 subscribed to the stop. -/
def sample_running : proxy :=
  proxy.session sample_context 1 3652501241 [] 7 [proxy_op.subscribe_stop 8]

/-- The same session after a stop with a transport error. -/
def sample_stopped : proxy :=
  sample_running.stop code.transport_error

end network

/-! ### Lemmas on the guard's lifetime -/

theorem guard_run_append (env : DbEnv) (ops : List guard_op) (op : guard_op) :
    guard_state.run env (ops ++ [op]) = (guard_state.run env ops).step op := by
  simp [guard_state.run, List.foldl_append]

/-- The handle of a live guard is the one its construction obtained. -/
theorem guard_run_txn (env : DbEnv) (ops : List guard_op) :
    (guard_state.run env ops).guard.txn_ = env.next_txn := by
  induction ops using List.reverseRecOn with
  | nil => rfl
  | append_singleton ops op ih =>
    rw [guard_run_append]
    cases op <;> simpa [guard_state.step, txn_guard.commit, txn_guard.abort] using ih

/-- The flag of a live guard records whether a terminal member was called. -/
theorem guard_run_used (env : DbEnv) (ops : List guard_op) :
    (guard_state.run env ops).guard.used_ = ops.any guard_op.is_terminal := by
  induction ops using List.reverseRecOn with
  | nil => rfl
  | append_singleton ops op ih =>
    rw [guard_run_append]
    cases op <;>
      simp [guard_state.step, txn_guard.commit, txn_guard.abort, guard_op.is_terminal, ih]

/-- The calls a live guard has made: its `txn_begin`, then one call per
terminal member called. -/
theorem guard_run_calls (env : DbEnv) (ops : List guard_op) :
    (guard_state.run env ops).env.calls =
      env.calls ++ db_call.txn_begin none 0 env.next_txn ::
        ops.filterMap (guard_op.call env.next_txn) := by
  induction ops using List.reverseRecOn with
  | nil => rfl
  | append_singleton ops op ih =>
    have ht := guard_run_txn env ops
    rw [guard_run_append]
    cases op <;>
      simp [guard_state.step, txn_guard.commit, txn_guard.abort, DbTxn.commit, DbTxn.abort,
        guard_op.call, List.filterMap_append, ih, ht]

/-- A live guard never touches the assertion count. -/
theorem guard_run_failures (env : DbEnv) (ops : List guard_op) :
    (guard_state.run env ops).env.assert_failures = env.assert_failures := by
  induction ops using List.reverseRecOn with
  | nil => rfl
  | append_singleton ops op ih =>
    rw [guard_run_append]
    cases op <;>
      simpa [guard_state.step, txn_guard.commit, txn_guard.abort, DbTxn.commit, DbTxn.abort]
        using ih

/-- Every call of a whole lifetime: the `txn_begin`, one call per terminal
member called, and the abort of the destructor when there was none. -/
theorem lifetime_calls (env : DbEnv) (ops : List guard_op) :
    (lifetime env ops).calls =
      env.calls ++ db_call.txn_begin none 0 env.next_txn ::
        (ops.filterMap (guard_op.call env.next_txn) ++
          if ops.any guard_op.is_terminal then [] else [db_call.abort env.next_txn]) := by
  have hu := guard_run_used env ops
  have ht := guard_run_txn env ops
  have hc := guard_run_calls env ops
  unfold lifetime txn_guard.destroy
  cases h : ops.any guard_op.is_terminal <;>
    simp [h, hu, ht, hc, BITCOIN_ASSERT, DbTxn.abort]

theorem lifetime_issued (env : DbEnv) (ops : List guard_op) :
    issued env (lifetime env ops) =
      db_call.txn_begin none 0 env.next_txn ::
        (ops.filterMap (guard_op.call env.next_txn) ++
          if ops.any guard_op.is_terminal then [] else [db_call.abort env.next_txn]) := by
  simp [issued, lifetime_calls]

theorem countP_terminal_calls (txn : DbTxn) (ops : List guard_op) :
    (ops.filterMap (guard_op.call txn)).countP (db_call.is_terminal_on txn) =
      ops.countP guard_op.is_terminal := by
  induction ops with
  | nil => rfl
  | cons op ops ih =>
    cases op <;>
      simp [guard_op.call, guard_op.is_terminal, db_call.is_terminal_on, List.countP_cons, ih]

theorem countP_commit_calls (txn : DbTxn) (ops : List guard_op) :
    (ops.filterMap (guard_op.call txn)).countP db_call.is_commit =
      ops.count guard_op.commit := by
  induction ops with
  | nil => rfl
  | cons op ops ih =>
    cases op <;>
      simp [guard_op.call, db_call.is_commit, List.countP_cons, List.count_cons, ih]

theorem any_terminal_iff (ops : List guard_op) :
    ops.any guard_op.is_terminal = true ↔
      ∃ op ∈ ops, op = guard_op.commit ∨ op = guard_op.abort := by
  rw [List.any_eq_true]
  constructor
  · rintro ⟨op, hm, hop⟩
    refine ⟨op, hm, ?_⟩
    cases op <;> simp [guard_op.is_terminal] at hop ⊢
  · rintro ⟨op, hm, hop⟩
    refine ⟨op, hm, ?_⟩
    rcases hop with h | h <;> simp [h, guard_op.is_terminal]

/-! ### Lemmas on the proxy -/

namespace network

theorem stop_of_stopped (s : proxy) (ec : code) (h : s.stopped_ = true) : s.stop ec = s := by
  simp [proxy.stop, h]

theorem stop_sets_stopped (s : proxy) (ec : code) : (s.stop ec).stopped_ = true := by
  unfold proxy.stop
  split
  · assumption
  · rfl

/-- What the caller that wins the compare-and-set logs: the socket close, one
notification per stop subscriber in registration order, the stopping hook. -/
theorem stop_log (s : proxy) (ec : code) (h : s.stopped_ = false) :
    (s.stop ec).log =
      s.log ++ event.socket_close ::
        (s.stop_subscriber_.handlers.map (fun x => event.stop_notified x ec) ++
          [event.handle_stopping]) := by
  simp [proxy.stop, h, proxy.do_close, stop_subscriber.relay]

theorem stop_final_code (s : proxy) (ec : code) (h : s.stopped_ = false) :
    (s.stop ec).final_code = ec := by
  simp [proxy.stop, h, proxy.do_close, stop_subscriber.relay]

theorem stop_message_subscriber (s : proxy) (ec : code) :
    (s.stop ec).message_subscriber_ = s.message_subscriber_ := by
  unfold proxy.stop
  split <;> rfl

theorem stop_magic (s : proxy) (ec : code) : (s.stop ec).magic_ = s.magic_ := by
  unfold proxy.stop
  split <;> rfl

theorem stops_of_stopped (s : proxy) (codes : List code) (h : s.stopped_ = true) :
    s.stops codes = s := by
  induction codes with
  | nil => rfl
  | cons c cs ih =>
    show (s.stop c).stops cs = s
    rw [stop_of_stopped s c h]
    exact ih

/-- No operation resets the stopped flag. -/
theorem step_keeps_stopped (ctx : context) (s : proxy) (op : proxy_op)
    (h : s.stopped_ = true) : (s.step ctx op).stopped_ = true := by
  cases op <;>
    simp [proxy.step, proxy.start, proxy.stop, proxy.stop_boost, proxy.subscribe_stop,
      proxy.read_heading, proxy.handle_read_heading, proxy.handle_read_payload, proxy.do_send,
      proxy.handle_send, proxy.send, proxy.subscribe, proxy.subscribe_message, h]

theorem run_keeps_stopped (ctx : context) (ops : List proxy_op) (s : proxy)
    (h : s.stopped_ = true) : (s.run ctx ops).stopped_ = true := by
  induction ops generalizing s with
  | nil => exact h
  | cons op ops ih => exact ih (s.step ctx op) (step_keeps_stopped ctx s op h)

theorem run_append (ctx : context) (s : proxy) (ops more : List proxy_op) :
    s.run ctx (ops ++ more) = (s.run ctx ops).run ctx more := by
  simp [proxy.run, List.foldl_append]

/-- A proxy that is running at the end of a sequence of operations was running
at its start. -/
theorem running_before (ctx : context) (ops : List proxy_op) (s : proxy)
    (h : (s.run ctx ops).stopped_ = false) : s.stopped_ = false := by
  cases hs : s.stopped_
  · rfl
  · rw [run_keeps_stopped ctx ops s hs] at h
    exact absurd h (by decide)

/-- No operation changes the configured magic. -/
theorem step_magic (ctx : context) (s : proxy) (op : proxy_op) :
    (s.step ctx op).magic_ = s.magic_ := by
  cases op <;>
    simp only [proxy.step, proxy.start, proxy.read_heading, proxy.subscribe_stop, proxy.send,
      proxy.do_send, proxy.subscribe, proxy.subscribe_message, proxy.handle_read_heading,
      proxy.handle_read_payload,
      proxy.handle_send, proxy.stop_boost, proxy.read_payload] <;>
    repeat' split
  all_goals first | rfl | simp only [stop_magic]

theorem run_magic (ctx : context) (ops : List proxy_op) (s : proxy) :
    (s.run ctx ops).magic_ = s.magic_ := by
  induction ops generalizing s with
  | nil => rfl
  | cons op ops ih =>
    show ((s.step ctx op).run ctx ops).magic_ = s.magic_
    rw [ih, step_magic]

theorem since_of_log (s later : proxy) (extra : List event)
    (h : later.log = s.log ++ extra) : s.since later = extra := by
  simp [proxy.since, h]

theorem dispatch_events (ctx : context) (m : message_subscriber) (command : String)
    (raw_bytes : data_chunk) :
    ∀ e ∈ (m.dispatch ctx command raw_bytes).2.2, e.is_dispatch = true := by
  unfold message_subscriber.dispatch
  split
  · simp
  · intro e he
    rcases List.mem_cons.mp he with rfl | he
    · rfl
    · obtain ⟨x, -, rfl⟩ := List.mem_map.mp he
      rfl

/-- Once stopped, an operation only adds reports to single handlers to the
log: a late stop notification, the completion of a send. -/
theorem step_after_stop (ctx : context) (s : proxy) (op : proxy_op)
    (h : s.stopped_ = true) :
    ∃ extra, (s.step ctx op).log = s.log ++ extra ∧ ∀ e ∈ extra, e.is_report = true := by
  cases op with
  | start handler =>
    exact ⟨[event.stop_notified handler s.final_code],
      by simp [proxy.step, proxy.start, proxy.subscribe_stop, proxy.read_heading, h],
      by simp [event.is_report]⟩
  | stop ec => exact ⟨[], by simp [proxy.step, stop_of_stopped s ec h], by simp⟩
  | send packet handler =>
    exact ⟨[event.send_notified handler code.lifecycle_error],
      by simp [proxy.step, proxy.send, proxy.do_send, h], by simp [event.is_report]⟩
  | subscribe command handler =>
    exact ⟨[], by simp [proxy.step, proxy.subscribe, proxy.subscribe_message, h], by simp⟩
  | subscribe_stop handler =>
    exact ⟨[event.stop_notified handler s.final_code],
      by simp [proxy.step, proxy.subscribe_stop, h], by simp [event.is_report]⟩
  | read_heading_done ec received =>
    exact ⟨[], by simp [proxy.step, proxy.handle_read_heading, h], by simp⟩
  | read_payload_done ec received head =>
    exact ⟨[], by simp [proxy.step, proxy.handle_read_payload, h], by simp⟩
  | send_done ec handler =>
    refine ⟨[event.send_notified handler (code.of_boost ec)], ?_, by simp [event.is_report]⟩
    simp only [proxy.step, proxy.handle_send, proxy.stop_boost]
    split
    · rw [stop_of_stopped _ _ (by exact h)]
    · rfl

/-- Once stopped, no operation changes the message subscriber. -/
theorem step_after_stop_registry (ctx : context) (s : proxy) (op : proxy_op)
    (h : s.stopped_ = true) :
    (s.step ctx op).message_subscriber_ = s.message_subscriber_ := by
  cases op with
  | start handler => simp [proxy.step, proxy.start, proxy.subscribe_stop, proxy.read_heading, h]
  | stop ec => simp [proxy.step, stop_of_stopped s ec h]
  | send packet handler => simp [proxy.step, proxy.send, proxy.do_send, h]
  | subscribe command handler => simp [proxy.step, proxy.subscribe, proxy.subscribe_message, h]
  | subscribe_stop handler => simp [proxy.step, proxy.subscribe_stop, h]
  | read_heading_done ec received => simp [proxy.step, proxy.handle_read_heading, h]
  | read_payload_done ec received head => simp [proxy.step, proxy.handle_read_payload, h]
  | send_done ec handler =>
    simp only [proxy.step, proxy.handle_send, proxy.stop_boost]
    split
    · rw [stop_message_subscriber]
    · rfl

theorem run_after_stop_registry (ctx : context) (ops : List proxy_op) (s : proxy)
    (h : s.stopped_ = true) :
    (s.run ctx ops).message_subscriber_ = s.message_subscriber_ := by
  induction ops generalizing s with
  | nil => rfl
  | cons op ops ih =>
    show ((s.step ctx op).run ctx ops).message_subscriber_ = s.message_subscriber_
    rw [ih (s.step ctx op) (step_keeps_stopped ctx s op h), step_after_stop_registry ctx s op h]

theorem run_after_stop (ctx : context) (ops : List proxy_op) (s : proxy)
    (h : s.stopped_ = true) :
    ∃ extra, (s.run ctx ops).log = s.log ++ extra ∧ ∀ e ∈ extra, e.is_report = true := by
  induction ops generalizing s with
  | nil => exact ⟨[], by simp [proxy.run], by simp⟩
  | cons op ops ih =>
    obtain ⟨ex₁, h₁, p₁⟩ := step_after_stop ctx s op h
    obtain ⟨ex₂, h₂, p₂⟩ := ih (s.step ctx op) (step_keeps_stopped ctx s op h)
    refine ⟨ex₁ ++ ex₂, ?_, ?_⟩
    · show ((s.step ctx op).run ctx ops).log = s.log ++ (ex₁ ++ ex₂)
      rw [h₂, h₁, List.append_assoc]
    · intro e he
      rcases List.mem_append.mp he with he | he
      · exact p₁ e he
      · exact p₂ e he

/-! The outcomes of a read completion on a running proxy. -/

theorem heading_failed (ctx : context) (s : proxy) (ec : boost_code) (received : data_chunk)
    (hs : s.stopped_ = false) (hec : ¬ ec = 0) :
    s.handle_read_heading ctx ec received = s.stop (code.of_boost ec) := by
  simp [proxy.handle_read_heading, proxy.stop_boost, hs, hec]

theorem heading_unparsed (ctx : context) (s : proxy) (received : data_chunk)
    (hs : s.stopped_ = false) (hparse : ctx.parse_heading received = none) :
    s.handle_read_heading ctx 0 received =
      ({ s with heading_buffer_ := received }).stop code.protocol_error := by
  simp [proxy.handle_read_heading, hs, hparse]

theorem heading_rejected (ctx : context) (s : proxy) (received : data_chunk) (head : heading)
    (hs : s.stopped_ = false) (hparse : ctx.parse_heading received = some head)
    (hbad : head.magic ≠ s.magic_ ∨ head.payload_length > ctx.max_payload_size) :
    s.handle_read_heading ctx 0 received =
      ({ s with heading_buffer_ := received }).stop code.protocol_error := by
  simp only [proxy.handle_read_heading, hs, hparse]
  by_cases hmagic : head.magic = s.magic_
  · have hlen : head.payload_length > ctx.max_payload_size := by
      rcases hbad with h | h
      · exact absurd hmagic h
      · exact h
    simp [hmagic, hlen]
  · simp [hmagic]

theorem heading_accepted (ctx : context) (s : proxy) (received : data_chunk) (head : heading)
    (hs : s.stopped_ = false) (hparse : ctx.parse_heading received = some head)
    (hok : ¬ (head.magic ≠ s.magic_ ∨ head.payload_length > ctx.max_payload_size)) :
    s.handle_read_heading ctx 0 received =
      { s with
        heading_buffer_ := received
        payload_buffer_ := List.replicate head.payload_length 0
        log := s.log ++
          [event.payload_allocated head.payload_length,
            event.read_payload_issued head.payload_length] } := by
  have hmagic : head.magic = s.magic_ := by
    by_contra hne
    exact hok (Or.inl hne)
  have hlen : ¬ head.payload_length > ctx.max_payload_size := fun hgt => hok (Or.inr hgt)
  simp [proxy.handle_read_heading, proxy.read_payload, hs, hparse, hmagic, hlen]

theorem payload_failed (ctx : context) (s : proxy) (ec : boost_code) (received : data_chunk)
    (head : heading) (hs : s.stopped_ = false) (hec : ¬ ec = 0) :
    s.handle_read_payload ctx ec received head = s.stop (code.of_boost ec) := by
  simp [proxy.handle_read_payload, proxy.stop_boost, hs, hec]

theorem payload_rejected (ctx : context) (s : proxy) (received : data_chunk) (head : heading)
    (hs : s.stopped_ = false) (hsum : ¬ ctx.compute_checksum received = head.checksum) :
    s.handle_read_payload ctx 0 received head =
      ({ s with payload_buffer_ := received }).stop code.protocol_error := by
  simp [proxy.handle_read_payload, hs, hsum]

theorem payload_accepted (ctx : context) (s : proxy) (received : data_chunk) (head : heading)
    (hs : s.stopped_ = false) (hsum : ctx.compute_checksum received = head.checksum) :
    s.handle_read_payload ctx 0 received head =
      { s with
        payload_buffer_ := received
        message_subscriber_ := (s.message_subscriber_.dispatch ctx head.command received).2.1
        log := s.log ++ (s.message_subscriber_.dispatch ctx head.command received).2.2 ++
          [event.handle_activity] ++ [event.read_heading_issued] } := by
  simp [proxy.handle_read_payload, proxy.read_heading, hs, hsum]

theorem not_running_of_stop {p : Prop} (s : proxy) (ec : code)
    (h : (s.stop ec).stopped_ = false) : p := by
  rw [stop_sets_stopped] at h
  exact absurd h (by decide)

/-- An operation that leaves the proxy running logs no event of the shutdown
sequence and only appends to the stop subscribers. -/
theorem step_running (ctx : context) (s : proxy) (op : proxy_op)
    (h : (s.step ctx op).stopped_ = false) :
    (∃ extra, (s.step ctx op).log = s.log ++ extra ∧ ∀ e ∈ extra, e.is_shutdown = false) ∧
    ∃ more, (s.step ctx op).stop_subscriber_.handlers = s.stop_subscriber_.handlers ++ more := by
  have hs : s.stopped_ = false := running_before ctx [op] s h
  cases op with
  | start handler =>
    refine ⟨⟨[event.read_heading_issued], ?_, by simp [event.is_shutdown]⟩, [handler], ?_⟩ <;>
      simp [proxy.step, proxy.start, proxy.subscribe_stop, proxy.read_heading, hs,
        stop_subscriber.subscribe]
  | stop ec => exact not_running_of_stop s ec h
  | send packet handler =>
    refine ⟨⟨[event.write_issued (ctx.serialize packet s.magic_) packet.command], ?_,
      by simp [event.is_shutdown]⟩, [], ?_⟩ <;>
      simp [proxy.step, proxy.send, proxy.do_send, hs]
  | subscribe command handler =>
    exact ⟨⟨[], by simp [proxy.step, proxy.subscribe, proxy.subscribe_message, hs], by simp⟩, [],
      by simp [proxy.step, proxy.subscribe, proxy.subscribe_message, hs]⟩
  | subscribe_stop handler =>
    refine ⟨⟨[], ?_, by simp⟩, [handler], ?_⟩ <;>
      simp [proxy.step, proxy.subscribe_stop, hs, stop_subscriber.subscribe]
  | read_heading_done ec received =>
    simp only [proxy.step] at h ⊢
    by_cases hec : ec = 0
    · subst hec
      cases hparse : ctx.parse_heading received with
      | none =>
        rw [heading_unparsed ctx s received hs hparse] at h
        exact not_running_of_stop _ _ h
      | some head =>
        by_cases hbad : head.magic ≠ s.magic_ ∨ head.payload_length > ctx.max_payload_size
        · rw [heading_rejected ctx s received head hs hparse hbad] at h
          exact not_running_of_stop _ _ h
        · rw [heading_accepted ctx s received head hs hparse hbad]
          exact ⟨⟨[event.payload_allocated head.payload_length,
            event.read_payload_issued head.payload_length], rfl,
            by simp [event.is_shutdown]⟩, [], by simp⟩
    · rw [heading_failed ctx s ec received hs hec] at h
      exact not_running_of_stop _ _ h
  | read_payload_done ec received head =>
    simp only [proxy.step] at h ⊢
    by_cases hec : ec = 0
    · subst hec
      by_cases hsum : ctx.compute_checksum received = head.checksum
      · rw [payload_accepted ctx s received head hs hsum]
        refine ⟨⟨(s.message_subscriber_.dispatch ctx head.command received).2.2 ++
          [event.handle_activity, event.read_heading_issued], by simp, ?_⟩, [], by simp⟩
        intro e he
        rcases List.mem_append.mp he with he | he
        · have := dispatch_events ctx _ _ _ e he
          cases e <;> simp_all [event.is_dispatch, event.is_shutdown]
        · simp only [List.mem_cons, List.mem_singleton, List.not_mem_nil, or_false] at he
          rcases he with rfl | rfl <;> rfl
      · rw [payload_rejected ctx s received head hs hsum] at h
        exact not_running_of_stop _ _ h
    · rw [payload_failed ctx s ec received head hs hec] at h
      exact not_running_of_stop _ _ h
  | send_done ec handler =>
    simp only [proxy.step, proxy.handle_send, proxy.stop_boost] at h ⊢
    split at h
    · exact not_running_of_stop _ _ h
    · rename_i hec
      rw [if_neg hec]
      exact ⟨⟨[event.send_notified handler (code.of_boost ec)], rfl,
        by simp [event.is_shutdown]⟩, [], by simp⟩

theorem run_running (ctx : context) (ops : List proxy_op) (s : proxy)
    (h : (s.run ctx ops).stopped_ = false) :
    (∃ extra, (s.run ctx ops).log = s.log ++ extra ∧ ∀ e ∈ extra, e.is_shutdown = false) ∧
    ∃ more, (s.run ctx ops).stop_subscriber_.handlers = s.stop_subscriber_.handlers ++ more := by
  induction ops generalizing s with
  | nil => exact ⟨⟨[], by simp [proxy.run], by simp⟩, [], by simp [proxy.run]⟩
  | cons op ops ih =>
    have h₁ : (s.step ctx op).stopped_ = false := running_before ctx ops (s.step ctx op) h
    obtain ⟨⟨ex₁, l₁, p₁⟩, m₁, q₁⟩ := step_running ctx s op h₁
    obtain ⟨⟨ex₂, l₂, p₂⟩, m₂, q₂⟩ := ih (s.step ctx op) h
    refine ⟨⟨ex₁ ++ ex₂, ?_, ?_⟩, m₁ ++ m₂, ?_⟩
    · show ((s.step ctx op).run ctx ops).log = s.log ++ (ex₁ ++ ex₂)
      rw [l₂, l₁, List.append_assoc]
    · intro e he
      rcases List.mem_append.mp he with he | he
      · exact p₁ e he
      · exact p₂ e he
    · show ((s.step ctx op).run ctx ops).stop_subscriber_.handlers = _
      rw [q₂, q₁, List.append_assoc]

theorem session_eq_run (ctx : context) (endpoint magic : Nat) (before : List proxy_op)
    (handler : result_handler) (after : List proxy_op) :
    proxy.session ctx endpoint magic before handler after =
      (proxy.create endpoint magic).run ctx (before ++ proxy_op.start handler :: after) := by
  rw [run_append]
  rfl

/-- A running session has logged no event of the shutdown sequence. -/
theorem session_log (ctx : context) (endpoint magic : Nat) (before : List proxy_op)
    (handler : result_handler) (after : List proxy_op)
    (h : (proxy.session ctx endpoint magic before handler after).stopped_ = false) :
    ∀ e ∈ (proxy.session ctx endpoint magic before handler after).log, e.is_shutdown = false := by
  rw [session_eq_run] at h ⊢
  obtain ⟨⟨ex, l, p⟩, -⟩ := run_running ctx _ _ h
  rw [l]
  simpa [proxy.create] using p

/-- The handler given to start is among the stop subscribers of a running
session. -/
theorem session_start_handler (ctx : context) (endpoint magic : Nat) (before : List proxy_op)
    (handler : result_handler) (after : List proxy_op)
    (h : (proxy.session ctx endpoint magic before handler after).stopped_ = false) :
    handler ∈ (proxy.session ctx endpoint magic before handler after).stop_subscriber_.handlers := by
  unfold proxy.session at h ⊢
  obtain ⟨-, m, q⟩ := run_running ctx after _ h
  have h₁ := running_before ctx after _ h
  have h₀ : ((proxy.create endpoint magic).run ctx before).stopped_ = false :=
    running_before ctx [proxy_op.start handler] _ h₁
  rw [q]
  simp [proxy.start, proxy.subscribe_stop, proxy.read_heading, h₀, stop_subscriber.subscribe]

theorem count_stop_notified (subs : List result_handler) (h : result_handler) (ec c : code) :
    (subs.map (fun x => event.stop_notified x c)).count (event.stop_notified h ec) =
      if ec = c then subs.count h else 0 := by
  induction subs with
  | nil => simp
  | cons x xs ih =>
    rw [List.map_cons, List.count_cons, ih, List.count_cons]
    by_cases hc : ec = c
    · by_cases hx : x = h
      · simp [hc, hx]
      · have hx' : ¬ h = x := fun e => hx e.symm
        simp [hc, hx, hx']
    · have hc' : ¬ c = ec := fun e => hc e.symm
      simp [hc, hc']

theorem count_eq_zero_of_shutdown (log : List event) (e : event) (he : e.is_shutdown = true)
    (h : ∀ x ∈ log, x.is_shutdown = false) : log.count e = 0 := by
  rw [List.count_eq_zero]
  intro hmem
  rw [h e hmem] at he
  exact absurd he (by decide)

theorem not_inbound_of_shutdown (e : event) (h : e.is_shutdown = true) :
    e.is_inbound = false := by
  cases e <;> simp_all [event.is_shutdown, event.is_inbound]

theorem not_inbound_of_report (e : event) (h : e.is_report = true) : e.is_inbound = false := by
  cases e <;> simp_all [event.is_report, event.is_inbound]

theorem not_dispatch_of_not_inbound (e : event) (h : e.is_inbound = false) :
    e.is_dispatch = false := by
  cases e <;> simp_all [event.is_dispatch, event.is_inbound]

theorem not_payload_read_of_not_inbound (e : event) (h : e.is_inbound = false) :
    e.is_payload_read = false := by
  cases e <;> simp_all [event.is_payload_read, event.is_inbound]

/-- What a call of stop logs, on a running proxy or on a stopped one, is not
part of the inbound path. -/
theorem stop_quiet (t : proxy) (ec : code) :
    ∃ extra, (t.stop ec).log = t.log ++ extra ∧ ∀ e ∈ extra, e.is_inbound = false := by
  cases ht : t.stopped_
  · refine ⟨_, stop_log t ec ht, ?_⟩
    intro e he
    apply not_inbound_of_shutdown
    rcases List.mem_cons.mp he with rfl | he
    · rfl
    · rcases List.mem_append.mp he with he | he
      · obtain ⟨x, -, rfl⟩ := List.mem_map.mp he
        rfl
      · rw [List.mem_singleton.mp he]
        rfl
  · exact ⟨[], by simp [stop_of_stopped t ec ht], by simp⟩

/-- After a call of stop, whatever operations follow, nothing of the inbound
path is logged: no read is issued, no payload buffer is allocated, nothing is
decoded and no message handler is invoked. -/
theorem stop_then_run_quiet (ctx : context) (t : proxy) (ec : code) (later : List proxy_op) :
    ∀ e ∈ t.since ((t.stop ec).run ctx later), e.is_inbound = false := by
  obtain ⟨ex₁, l₁, p₁⟩ := stop_quiet t ec
  obtain ⟨ex₂, l₂, p₂⟩ := run_after_stop ctx later (t.stop ec) (stop_sets_stopped t ec)
  have hl : ((t.stop ec).run ctx later).log = t.log ++ (ex₁ ++ ex₂) := by
    rw [l₂, l₁, List.append_assoc]
  rw [since_of_log t _ _ hl]
  intro e he
  rcases List.mem_append.mp he with he | he
  · exact p₁ e he
  · exact not_inbound_of_report e (p₂ e he)

theorem since_of_same_log (s t later : proxy) (h : t.log = s.log) :
    s.since later = t.since later := by
  simp [proxy.since, h]

/-- A payload read that completes with a payload of the wrong checksum ends in
a call of stop, on the proxy as it was or with the payload in its buffer. -/
theorem payload_mismatch_stops (ctx : context) (s : proxy) (ec : boost_code)
    (received : data_chunk) (head : heading)
    (hbad : ctx.compute_checksum received ≠ head.checksum) :
    ∃ (t : proxy) (c : code), s.handle_read_payload ctx ec received head = t.stop c ∧ t.log = s.log ∧
      t.message_subscriber_ = s.message_subscriber_ := by
  cases hs : s.stopped_
  · by_cases hec : ec = 0
    · subst hec
      exact ⟨_, _, payload_rejected ctx s received head hs hbad, rfl, rfl⟩
    · exact ⟨_, _, payload_failed ctx s ec received head hs hec, rfl, rfl⟩
  · refine ⟨s, code.success, ?_, rfl, rfl⟩
    rw [stop_of_stopped s _ hs]
    simp [proxy.handle_read_payload, hs]

/-- A heading read that completes with a heading of the wrong magic or of too
long a payload ends in a call of stop, on the proxy as it was or with the
heading in its buffer. -/
theorem heading_mismatch_stops (ctx : context) (s : proxy) (ec : boost_code)
    (received : data_chunk) (head : heading)
    (hparse : ctx.parse_heading received = some head)
    (hbad : head.magic ≠ s.magic_ ∨ head.payload_length > ctx.max_payload_size) :
    ∃ (t : proxy) (c : code), s.handle_read_heading ctx ec received = t.stop c ∧ t.log = s.log := by
  cases hs : s.stopped_
  · by_cases hec : ec = 0
    · subst hec
      exact ⟨_, _, heading_rejected ctx s received head hs hparse hbad, rfl⟩
    · exact ⟨_, _, heading_failed ctx s ec received hs hec, rfl⟩
  · refine ⟨s, code.success, ?_, rfl⟩
    rw [stop_of_stopped s _ hs]
    simp [proxy.handle_read_heading, hs]

/-- On the running sample session a payload of the declared checksum does reach
the decoder and the subscribed handler, and the read cycle goes on. -/
theorem sample_dispatch :
    sample_running.since
        (((sample_running.step sample_context
            (proxy_op.subscribe "verack" sample_handler)).handle_read_payload sample_context 0
          [1, 2, 4] sample_heading)) =
      [event.decoded "verack" [1, 2, 4],
        event.message_notified 5 code.success (some { command := "verack", body := [1, 2, 4] }),
        event.handle_activity, event.read_heading_issued] := by
  decide

end network

/-! ## Properties of txn_guard -/

/-- Claim C7 (txn_guard release). For every environment and every sequence of
client calls, the destructor issues abort on the guard's transaction exactly
when neither commit() nor abort() was called, the assertion on used_ fails
exactly when neither was called, and if at least one of them was called the
destructor issues no call at all and the assertion holds. -/
theorem txn_guard_release (env : DbEnv) (ops : List guard_op) :
    ((lifetime env ops).calls =
        (guard_state.run env ops).env.calls ++
          [db_call.abort (guard_state.run env ops).guard.txn_] ↔
      ¬ ∃ op ∈ ops, op = guard_op.commit ∨ op = guard_op.abort) ∧
    ((lifetime env ops).assert_failures =
        (guard_state.run env ops).env.assert_failures + 1 ↔
      ¬ ∃ op ∈ ops, op = guard_op.commit ∨ op = guard_op.abort) ∧
    ((∃ op ∈ ops, op = guard_op.commit ∨ op = guard_op.abort) →
      (lifetime env ops).calls = (guard_state.run env ops).env.calls ∧
      (lifetime env ops).assert_failures = (guard_state.run env ops).env.assert_failures) := by
  have hu := guard_run_used env ops
  rw [← any_terminal_iff]
  unfold lifetime txn_guard.destroy
  cases h : ops.any guard_op.is_terminal <;>
    simp [h, hu, BITCOIN_ASSERT, DbTxn.abort]

/-- The claim C8 as stated fails: a guard on which commit() is called twice
issues two terminal operations on its transaction, not one. -/
theorem txn_guard_double_commit :
    (issued fresh_env (lifetime fresh_env [guard_op.commit, guard_op.commit])).countP
        (db_call.is_terminal_on (guard_state.init fresh_env).guard.txn_) = 2 ∧
    ¬ (issued fresh_env (lifetime fresh_env [guard_op.commit, guard_op.commit])).countP
        (db_call.is_terminal_on (guard_state.init fresh_env).guard.txn_) = 1 := by
  decide

/-- Claim C8, amended (txn_guard terminal operations). Over the whole lifetime
of a guard, destruction included, its transaction receives one terminal
operation per commit()/abort() call made on the guard, and the single abort of
the destructor when no such call was made; so it receives exactly one terminal
operation if and only if at most one such call was made. -/
theorem txn_guard_terminal_operations (env : DbEnv) (ops : List guard_op) :
    (issued env (lifetime env ops)).countP
        (db_call.is_terminal_on (guard_state.init env).guard.txn_) =
      max 1 (ops.countP guard_op.is_terminal) ∧
    ((issued env (lifetime env ops)).countP
        (db_call.is_terminal_on (guard_state.init env).guard.txn_) = 1 ↔
      ops.countP guard_op.is_terminal ≤ 1) := by
  have key : (issued env (lifetime env ops)).countP
        (db_call.is_terminal_on (guard_state.init env).guard.txn_) =
      max 1 (ops.countP guard_op.is_terminal) := by
    have hinit : (guard_state.init env).guard.txn_ = env.next_txn := rfl
    rw [lifetime_issued, hinit]
    cases h : ops.any guard_op.is_terminal
    · have h0 : ops.countP guard_op.is_terminal = 0 := by
        rw [List.countP_eq_zero]
        intro op hop
        have := List.any_eq_false.mp h op hop
        simpa using this
      simp [List.countP_cons, List.countP_append, countP_terminal_calls, h0,
        db_call.is_terminal_on]
    · have hpos : 0 < ops.countP guard_op.is_terminal := by
        rw [List.countP_pos_iff]
        simpa [List.any_eq_true] using h
      rw [max_eq_right hpos]
      simp [List.countP_cons, List.countP_append, countP_terminal_calls,
        db_call.is_terminal_on]
  refine ⟨key, ?_⟩
  rw [key]
  omega

/-- Claim C9 (txn_guard begin-on-acquire). Constructing a guard calls
txn_begin on the environment once, with no parent and flags 0, and leaves
used_ false; the guard holds the handle that call produced, no client call
changes it, every get() returns it, and a whole lifetime contains exactly one
txn_begin. -/
theorem txn_guard_begin_on_acquire (env : DbEnv) (ops : List guard_op) :
    (txn_guard.create env).2.calls =
        env.calls ++ [db_call.txn_begin none 0 (env.txn_begin none 0).1] ∧
    (txn_guard.create env).1.used_ = false ∧
    (txn_guard.create env).1.get = (env.txn_begin none 0).1 ∧
    (guard_state.run env ops).guard.txn_ = (env.txn_begin none 0).1 ∧
    (guard_state.run env ops).guard.get = (env.txn_begin none 0).1 ∧
    (∀ t ∈ (guard_state.run env ops).got, t = (env.txn_begin none 0).1) ∧
    (guard_state.run env ops).got.length = ops.count guard_op.get ∧
    (issued env (lifetime env ops)).countP db_call.is_begin = 1 := by
  have hgot : (guard_state.run env ops).got =
      List.replicate (ops.count guard_op.get) env.next_txn := by
    induction ops using List.reverseRecOn with
    | nil => rfl
    | append_singleton ops op ih =>
      have ht := guard_run_txn env ops
      rw [guard_run_append]
      cases op <;>
        simp [guard_state.step, txn_guard.get, ih, ht, List.count_append,
          List.replicate_succ']
  have hbegin : (ops.filterMap (guard_op.call env.next_txn)).countP db_call.is_begin = 0 := by
    rw [List.countP_eq_zero]
    intro c hc
    rw [List.mem_filterMap] at hc
    obtain ⟨op, -, hop⟩ := hc
    cases op <;> simp [guard_op.call] at hop <;> simp [← hop, db_call.is_begin]
  refine ⟨rfl, rfl, rfl, guard_run_txn env ops, guard_run_txn env ops, ?_, ?_, ?_⟩
  · intro t ht
    rw [hgot] at ht
    exact (List.mem_replicate.mp ht).2
  · simp [hgot]
  · rw [lifetime_issued]
    cases h : ops.any guard_op.is_terminal <;>
      simp [List.countP_cons, List.countP_append, hbegin, db_call.is_begin]

/-- Claim C10 (txn_guard never commits implicitly). Over a whole lifetime the
number of commits issued equals the number of commit() calls; a lifetime
without a call of commit() issues no commit; and a guard dropped without a
terminal call issues its txn_begin followed by one abort, and nothing else. -/
theorem txn_guard_no_implicit_commit (env : DbEnv) (ops : List guard_op) :
    (issued env (lifetime env ops)).countP db_call.is_commit = ops.count guard_op.commit ∧
    (guard_op.commit ∉ ops → ∀ c ∈ issued env (lifetime env ops), c.is_commit = false) ∧
    ((∀ op ∈ ops, op = guard_op.get) →
      issued env (lifetime env ops) =
        [db_call.txn_begin none 0 (guard_state.init env).guard.txn_,
          db_call.abort (guard_state.init env).guard.txn_]) := by
  have hcount : (issued env (lifetime env ops)).countP db_call.is_commit =
      ops.count guard_op.commit := by
    rw [lifetime_issued]
    cases h : ops.any guard_op.is_terminal <;>
      simp [List.countP_cons, List.countP_append, countP_commit_calls, db_call.is_commit]
  refine ⟨hcount, ?_, ?_⟩
  · intro hno c hc
    have hzero : (issued env (lifetime env ops)).countP db_call.is_commit = 0 := by
      rw [hcount]
      exact List.count_eq_zero_of_not_mem hno
    rw [List.countP_eq_zero] at hzero
    simpa using hzero c hc
  · intro hall
    have hany : ops.any guard_op.is_terminal = false := by
      rw [List.any_eq_false]
      intro op hop
      simp [hall op hop, guard_op.is_terminal]
    have hnone : ops.filterMap (guard_op.call env.next_txn) = [] := by
      rw [List.filterMap_eq_nil_iff]
      intro op hop
      simp [hall op hop, guard_op.call]
    rw [lifetime_issued, hany, hnone]
    rfl

/-! ## Properties of the proxy -/

namespace network

/-- Claim C1 (exactly-once stop). On a started proxy that is running, N >= 1
calls of stop with the codes c, rest leave the proxy in the state the first
call alone leaves it in (calls 2..N change nothing); they log one socket
close, then one notification with the first code c per registered stop
subscriber in registration order, then one stopping hook; the handler given to
start is among the notified subscribers; and in the whole log of the proxy the
socket close and the stopping hook occur once, and a stop notification occurs
once per registration of its handler, with the code c and no other. -/
theorem stop_exactly_once (ctx : context) (endpoint magic : Nat) (before : List proxy_op)
    (handler : result_handler) (after : List proxy_op) (c : code) (rest : List code)
    (hrun : (proxy.session ctx endpoint magic before handler after).stopped = false) :
    ((proxy.session ctx endpoint magic before handler after).stops (c :: rest) =
      (proxy.session ctx endpoint magic before handler after).stop c) ∧
    ((proxy.session ctx endpoint magic before handler after).stops (c :: rest)).stopped = true ∧
    ((proxy.session ctx endpoint magic before handler after).stops (c :: rest)).final_code = c ∧
    (proxy.session ctx endpoint magic before handler after).since
        ((proxy.session ctx endpoint magic before handler after).stops (c :: rest)) =
      event.socket_close ::
        ((proxy.session ctx endpoint magic before handler after).stop_subscriber_.handlers.map
            (fun x => event.stop_notified x c) ++ [event.handle_stopping]) ∧
    handler ∈ (proxy.session ctx endpoint magic before handler after).stop_subscriber_.handlers ∧
    ((proxy.session ctx endpoint magic before handler after).stops (c :: rest)).log.count
        event.socket_close = 1 ∧
    ((proxy.session ctx endpoint magic before handler after).stops (c :: rest)).log.count
        event.handle_stopping = 1 ∧
    ∀ (h : result_handler) (ec : code),
      ((proxy.session ctx endpoint magic before handler after).stops (c :: rest)).log.count
          (event.stop_notified h ec) =
        if ec = c then
          (proxy.session ctx endpoint magic before handler after).stop_subscriber_.handlers.count h
        else 0 := by
  have hs : (proxy.session ctx endpoint magic before handler after).stopped_ = false := hrun
  have hlog := session_log ctx endpoint magic before handler after hs
  have hmem := session_start_handler ctx endpoint magic before handler after hs
  generalize proxy.session ctx endpoint magic before handler after = s at hs hlog hmem ⊢
  have hfirst : s.stops (c :: rest) = s.stop c :=
    stops_of_stopped (s.stop c) rest (stop_sets_stopped s c)
  have hseq := stop_log s c hs
  refine ⟨hfirst, ?_, ?_, ?_, hmem, ?_, ?_, ?_⟩
  · rw [hfirst]
    exact stop_sets_stopped s c
  · rw [hfirst]
    exact stop_final_code s c hs
  · rw [hfirst]
    exact since_of_log s _ _ hseq
  · rw [hfirst, hseq, List.count_append,
      count_eq_zero_of_shutdown s.log event.socket_close rfl hlog]
    simp [List.count_cons, List.count_append, List.count_eq_zero]
  · rw [hfirst, hseq, List.count_append,
      count_eq_zero_of_shutdown s.log event.handle_stopping rfl hlog]
    simp [List.count_cons, List.count_append, List.count_eq_zero]
  · intro h ec
    rw [hfirst, hseq, List.count_append,
      count_eq_zero_of_shutdown s.log (event.stop_notified h ec) rfl hlog]
    simp [List.count_cons, List.count_append, count_stop_notified]

/-- Witness of C1: three calls of stop on the running sample session. -/
theorem stop_exactly_once_witness :
    sample_running.stopped = false ∧
    sample_running.stops [code.protocol_error, code.other 1, code.success] =
      sample_running.stop code.protocol_error ∧
    sample_running.since
        (sample_running.stops [code.protocol_error, code.other 1, code.success]) =
      [event.socket_close, event.stop_notified 7 code.protocol_error,
        event.stop_notified 8 code.protocol_error, event.handle_stopping] :=
  have h := stop_exactly_once sample_context 1 3652501241 [] 7 [proxy_op.subscribe_stop 8]
    code.protocol_error [code.other 1, code.success] rfl
  ⟨rfl, h.1, h.2.2.2.1⟩

/-- Claim C2 (monotonic stopped flag). On a proxy for which stopped() is true,
stopped() is true after every operation (start, stop, send, subscribe,
subscribe_stop, the completion of a heading read, of a payload read or of a
write), and so after every sequence of operations. -/
theorem stopped_monotonic (ctx : context) (s : proxy) (op : proxy_op) (ops : List proxy_op)
    (h : s.stopped = true) :
    (s.step ctx op).stopped = true ∧ (s.run ctx ops).stopped = true :=
  ⟨step_keeps_stopped ctx s op h, run_keeps_stopped ctx ops s h⟩

/-- Witness of C2: a start and further operations on the stopped sample
session. -/
theorem stopped_monotonic_witness :
    sample_stopped.stopped = true ∧
    (sample_stopped.step sample_context (proxy_op.start 9)).stopped = true ∧
    (sample_stopped.run sample_context
      [proxy_op.start 9, proxy_op.read_heading_done 0 [3652501241, 0, 0]]).stopped = true :=
  ⟨rfl, stopped_monotonic sample_context sample_stopped (proxy_op.start 9)
    [proxy_op.start 9, proxy_op.read_heading_done 0 [3652501241, 0, 0]] rfl⟩

/-- Claim C3 (checksum gating). When a payload read completes with a payload
whose checksum, computed by the codec, differs from the checksum the heading
declares, the proxy is stopped afterwards, its message subscriber is
untouched, and neither the completion nor any operation after it hands a
payload to a typed decoder or invokes a message handler. On a running proxy
and a successful read the stop is a stop with a protocol error: that code is
the final code, and the socket close, the notification of every stop
subscriber with the protocol error and the stopping hook are what the
completion logs. -/
theorem checksum_gating (ctx : context) (s : proxy) (ec : boost_code) (received : data_chunk)
    (head : heading) (later : List proxy_op)
    (hbad : ctx.compute_checksum received ≠ head.checksum) :
    (s.handle_read_payload ctx ec received head).stopped = true ∧
    (s.handle_read_payload ctx ec received head).message_subscriber_ = s.message_subscriber_ ∧
    (∀ e ∈ s.since ((s.handle_read_payload ctx ec received head).run ctx later),
      e.is_dispatch = false) ∧
    (s.stopped = false → ec = 0 →
      (s.handle_read_payload ctx ec received head).final_code = code.protocol_error ∧
      s.since (s.handle_read_payload ctx ec received head) =
        event.socket_close ::
          (s.stop_subscriber_.handlers.map (fun x => event.stop_notified x code.protocol_error) ++
            [event.handle_stopping])) := by
  obtain ⟨t, c, hres, hlog, hsub⟩ := payload_mismatch_stops ctx s ec received head hbad
  refine ⟨?_, ?_, ?_, ?_⟩
  · rw [hres]
    exact stop_sets_stopped t c
  · rw [hres, stop_message_subscriber, hsub]
  · intro e he
    rw [hres, since_of_same_log s t _ hlog] at he
    exact not_dispatch_of_not_inbound e (stop_then_run_quiet ctx t c later e he)
  · intro hs hec
    subst hec
    have hs' : s.stopped_ = false := hs
    rw [payload_rejected ctx s received head hs' hbad]
    exact ⟨stop_final_code _ _ hs', since_of_log s _ _ (stop_log _ _ hs')⟩

/-- Witness of C3: the running sample session receives the payload 1, 2, 3
under a heading that declares the checksum 7. -/
theorem checksum_gating_witness :
    sample_context.compute_checksum [1, 2, 3] ≠ sample_heading.checksum ∧
    (sample_running.handle_read_payload sample_context 0 [1, 2, 3] sample_heading).stopped =
      true ∧
    (sample_running.handle_read_payload sample_context 0 [1, 2, 3] sample_heading).final_code =
      code.protocol_error ∧
    sample_running.since
        (sample_running.handle_read_payload sample_context 0 [1, 2, 3] sample_heading) =
      [event.socket_close, event.stop_notified 7 code.protocol_error,
        event.stop_notified 8 code.protocol_error, event.handle_stopping] :=
  have h := checksum_gating sample_context sample_running 0 [1, 2, 3] sample_heading
    [proxy_op.start 9] (by decide)
  ⟨by decide, h.1, (h.2.2.2 rfl rfl).1, (h.2.2.2 rfl rfl).2⟩

/-- Claim C4 (heading rejection). When a heading read completes with a heading
whose magic differs from the configured magic, or whose payload length exceeds
the configured maximum, the proxy is stopped afterwards, and neither the
completion nor any operation after it allocates a payload buffer, issues a
payload read, decodes a payload or invokes a message handler. On a running
proxy and a successful read the stop is a stop with a protocol error: that
code is the final code, the payload buffer is empty, and the socket close, the
notification of every stop subscriber with the protocol error and the stopping
hook are what the completion logs. -/
theorem heading_rejection (ctx : context) (s : proxy) (ec : boost_code) (received : data_chunk)
    (head : heading) (later : List proxy_op)
    (hparse : ctx.parse_heading received = some head)
    (hbad : head.magic ≠ s.magic_ ∨ head.payload_length > ctx.max_payload_size) :
    (s.handle_read_heading ctx ec received).stopped = true ∧
    (∀ e ∈ s.since ((s.handle_read_heading ctx ec received).run ctx later),
      e.is_payload_read = false ∧ e.is_dispatch = false) ∧
    (s.stopped = false → ec = 0 →
      (s.handle_read_heading ctx ec received).final_code = code.protocol_error ∧
      (s.handle_read_heading ctx ec received).payload_buffer_ = [] ∧
      s.since (s.handle_read_heading ctx ec received) =
        event.socket_close ::
          (s.stop_subscriber_.handlers.map (fun x => event.stop_notified x code.protocol_error) ++
            [event.handle_stopping])) := by
  obtain ⟨t, c, hres, hlog⟩ := heading_mismatch_stops ctx s ec received head hparse hbad
  refine ⟨?_, ?_, ?_⟩
  · rw [hres]
    exact stop_sets_stopped t c
  · intro e he
    rw [hres, since_of_same_log s t _ hlog] at he
    have hq := stop_then_run_quiet ctx t c later e he
    exact ⟨not_payload_read_of_not_inbound e hq, not_dispatch_of_not_inbound e hq⟩
  · intro hs hec
    subst hec
    have hs' : s.stopped_ = false := hs
    rw [heading_rejected ctx s received head hs' hparse hbad]
    refine ⟨stop_final_code _ _ hs', ?_, since_of_log s _ _ (stop_log _ _ hs')⟩
    simp [proxy.stop, hs', proxy.do_close]

/-- Witness of C4: the running sample session receives a heading of magic 1,
and a heading of the configured magic that declares 17 bytes of payload. -/
theorem heading_rejection_witness :
    sample_context.parse_heading [1, 3, 6] =
      some { magic := 1, command := "verack", payload_length := 3, checksum := 6 } ∧
    (sample_running.handle_read_heading sample_context 0 [1, 3, 6]).stopped = true ∧
    (sample_running.handle_read_heading sample_context 0 [1, 3, 6]).final_code =
      code.protocol_error ∧
    (sample_running.handle_read_heading sample_context 0 [3652501241, 17, 6]).stopped = true :=
  have h := heading_rejection sample_context sample_running 0 [1, 3, 6]
    { magic := 1, command := "verack", payload_length := 3, checksum := 6 } [] rfl
    (Or.inl (by decide))
  have h₂ := heading_rejection sample_context sample_running 0 [3652501241, 17, 6]
    { magic := 3652501241, command := "verack", payload_length := 17, checksum := 6 } [] rfl
    (Or.inr (by decide))
  ⟨rfl, h.1, (h.2.2 rfl rfl).1, h₂.1⟩

/-- Claim C5 (send frames with the configured magic). In every state a proxy
constructed with a magic reaches, magic_ is still that magic, and
send(packet, handler) is the call of do_send with the bytes
serialize(packet, magic), the same handler and packet.command, whatever
serialize and do_send are; with the codec and the do_send of the proxy, a send
on a running proxy writes exactly those bytes. -/
theorem send_hands_do_send {α : Type} (ctx : context) (endpoint magic : Nat)
    (ops : List proxy_op) (serialize : message → Nat → data_chunk)
    (do_send : proxy → data_chunk → result_handler → String → α)
    (packet : message) (handler : result_handler) :
    ((proxy.create endpoint magic).run ctx ops).magic_ = magic ∧
    ((proxy.create endpoint magic).run ctx ops).send serialize do_send packet handler =
      do_send ((proxy.create endpoint magic).run ctx ops) (serialize packet magic) handler
        packet.command ∧
    (((proxy.create endpoint magic).run ctx ops).stopped = false →
      ((proxy.create endpoint magic).run ctx ops).since
          (((proxy.create endpoint magic).run ctx ops).step ctx
            (proxy_op.send packet handler)) =
        [event.write_issued (ctx.serialize packet magic) packet.command]) := by
  have hm : ((proxy.create endpoint magic).run ctx ops).magic_ = magic :=
    run_magic ctx ops (proxy.create endpoint magic)
  refine ⟨hm, by rw [proxy.send, hm], ?_⟩
  intro hs
  have hs' : ((proxy.create endpoint magic).run ctx ops).stopped_ = false := hs
  apply since_of_log
  simp [proxy.step, proxy.send, proxy.do_send, hs', hm]

/-- Claim C6 (subscribe). The member subscribe<T>(h) hands h unchanged to the
subscribe of the message subscriber, whatever that is. With the subscriber of
the specification, on a proxy that has stopped the call is a no-op: the state
is unchanged, h is not added to the handler list of the command of T, the
message subscriber stays as it is through every later operation, and no later
operation decodes a payload or invokes a message handler, so h is never
invoked. On a proxy that has not stopped the call appends h to the handler
list of the command of T and changes no other list, nor the log. -/
theorem subscribe_after_stop_noop {α : Type} (ctx : context) (s : proxy) (command : String)
    (handler : message_handler) (later : List proxy_op)
    (callee : proxy → String → message_handler → α) :
    s.subscribe callee command handler = callee s command handler ∧
    (s.stopped = true →
      s.step ctx (proxy_op.subscribe command handler) = s ∧
      (s.step ctx (proxy_op.subscribe command handler)).message_subscriber_.handlers command =
        s.message_subscriber_.handlers command ∧
      ((s.step ctx (proxy_op.subscribe command handler)).run ctx later).message_subscriber_ =
        s.message_subscriber_ ∧
      ∀ e ∈ s.since ((s.step ctx (proxy_op.subscribe command handler)).run ctx later),
        e.is_dispatch = false) ∧
    (s.stopped = false →
      (s.step ctx (proxy_op.subscribe command handler)).message_subscriber_.handlers command =
        s.message_subscriber_.handlers command ++ [handler] ∧
      (∀ c, c ≠ command →
        (s.step ctx (proxy_op.subscribe command handler)).message_subscriber_.handlers c =
          s.message_subscriber_.handlers c) ∧
      (s.step ctx (proxy_op.subscribe command handler)).log = s.log) := by
  refine ⟨rfl, ?_, ?_⟩
  · intro hs
    have hs' : s.stopped_ = true := hs
    have hnoop : s.step ctx (proxy_op.subscribe command handler) = s := by
      simp [proxy.step, proxy.subscribe, proxy.subscribe_message, hs']
    rw [hnoop]
    refine ⟨rfl, rfl, run_after_stop_registry ctx later s hs', ?_⟩
    intro e he
    obtain ⟨ex, l, p⟩ := run_after_stop ctx later s hs'
    rw [since_of_log s _ _ l] at he
    exact not_dispatch_of_not_inbound e (not_inbound_of_report e (p e he))
  · intro hs
    have hs' : s.stopped_ = false := hs
    refine ⟨?_, ?_, ?_⟩
    · simp [proxy.step, proxy.subscribe, proxy.subscribe_message, hs',
        message_subscriber.subscribe]
    · intro c hc
      simp [proxy.step, proxy.subscribe, proxy.subscribe_message, hs',
        message_subscriber.subscribe, hc]
    · simp [proxy.step, proxy.subscribe, proxy.subscribe_message, hs']

/-- Witness of C6: a subscribe on the stopped sample session leaves the list of
"verack" empty, and the same call on the running session registers the
handler. -/
theorem subscribe_after_stop_noop_witness :
    sample_stopped.stopped = true ∧
    sample_running.stopped = false ∧
    ((sample_stopped.step sample_context
      (proxy_op.subscribe "verack" sample_handler)).message_subscriber_.handlers "verack").map
        message_handler.id = [] ∧
    (sample_running.step sample_context
      (proxy_op.subscribe "verack" sample_handler)).message_subscriber_.handlers "verack" =
        sample_running.message_subscriber_.handlers "verack" ++ [sample_handler] :=
  have h := subscribe_after_stop_noop sample_context sample_stopped "verack" sample_handler []
    proxy.subscribe_message
  have h₂ := subscribe_after_stop_noop sample_context sample_running "verack" sample_handler []
    proxy.subscribe_message
  ⟨rfl, rfl, by rw [(h.2.1 rfl).2.1]; decide, (h₂.2.2 rfl).1⟩

end network

end libbitcoin
